import Mathlib

/-
Verification of the streaming-response core of the MyGPT repository.

The development shallowly embeds the code of `chat_handler.py` and
`multi_provider_chat_handler.py`: strings are `List Char`, the provider
network calls are parameters of the embedded functions (the code around
them is translated literally), and Python generators are modelled as the
finite list of the units they yield, together with a flag recording
whether iterating the generator ends in an exception.
-/

set_option maxRecDepth 10000

/-- A chat message, the `{"role": ..., "content": ...}` dictionaries the
handlers exchange.  Roles and contents are Python strings, embedded as
`List Char`. -/
structure Msg where
  role : List Char
  content : List Char
deriving DecidableEq

/-- `isPrefixL f s` embeds the test that the string `f` occurs at the very
start of `s` (the primitive under Python `str.find` and `in`). -/
def isPrefixL : List Char → List Char → Bool
  | [], _ => true
  | _ :: _, [] => false
  | a :: as, b :: bs => a == b && isPrefixL as bs

/-- `findSub f s` embeds Python `s.find(f)`: the index of the leftmost
occurrence of `f` in `s`, `none` standing for the `-1` returned when `f`
does not occur. -/
def findSub (f : List Char) : List Char → Option Nat
  | [] => if isPrefixL f [] then some 0 else none
  | c :: t => if isPrefixL f (c :: t) then some 0 else (findSub f t).map (· + 1)

/-- `containsSub f s` embeds Python `f in s` (substring containment). -/
def containsSub (f s : List Char) : Bool :=
  (findSub f s).isSome

/-- The triple-backtick fence marker, the literal `"```"` of
`chat_handler.get_ai_response_stream`. -/
def fence : List Char := "```".data

/-- Helper for `countFence`: scans the string left to right; the `Nat`
argument is the number of characters still to be skipped because they
belong to an already counted marker. -/
def countFenceAux : Nat → List Char → Nat
  | _, [] => 0
  | 0, c :: t => if isPrefixL fence (c :: t) then 1 + countFenceAux 2 t else countFenceAux 0 t
  | k + 1, _ :: t => countFenceAux k t

/-- `countFence s` embeds Python `s.count("```")`: the number of
non-overlapping occurrences of the triple-backtick marker in `s`, counted
greedily from the left. -/
def countFence (s : List Char) : Nat :=
  countFenceAux 0 s

/-- One activation of the `while True:` reassembly loop of
`chat_handler.get_ai_response_stream` (source lines 79-105) on the current
buffer.  Returns the units the loop body yields, in order, and the buffer
left behind when the loop breaks.

The loop is embedded with explicit fuel; every iteration that re-enters
the loop consumes a complete fence, i.e. at least six characters of the
buffer, so `length + 1` units of fuel are strictly more than the loop can
use and the out-of-fuel branch of `processBufferF` is unreachable from
`processBuffer`. -/
def processBufferF : Nat → List Char → List (List Char) × List Char
  | 0, s => ([], s)
  | fuel + 1, s =>
    match findSub fence s with
    | none =>
      -- no code block started: yield the whole buffer and clear it
      ([s], [])
    | some start =>
      match findSub fence (s.drop (start + 3)) with
      | none =>
        -- code block not complete yet: keep everything in the buffer
        ([], s)
      | some e =>
        let endIdx := start + 3 + e
        let r := processBufferF fuel (s.drop (endIdx + 3))
        ((if 0 < start then [s.take start] else []) ++
          (s.drop start).take (endIdx + 3 - start) :: r.1, r.2)

/-- The reassembly loop run on a buffer, with enough fuel for the loop to
run to its `break`. -/
def processBuffer (s : List Char) : List (List Char) × List Char :=
  processBufferF (s.length + 1) s

/-- Feeds a sequence of provider deltas through the code-fence reassembly
filter of `chat_handler.get_ai_response_stream`, starting from buffer
`buf`: empty chunks are skipped (the `if chunk.choices[0].delta.content:`
guard), every other chunk is appended to the buffer and the `while` loop
is run.  Returns all yielded units in order and the buffer still held when
the provider stream ends.  The source yields nothing further at
end-of-stream: the final buffer is dropped. -/
def runStream : List Char → List (List Char) → List (List Char) × List Char
  | buf, [] => ([], buf)
  | buf, c :: cs =>
    if c = [] then runStream buf cs
    else
      let p := processBuffer (buf ++ c)
      let r := runStream p.2 cs
      (p.1 ++ r.1, r.2)

/-- The units `get_ai_response_stream` yields for a given sequence of raw
provider deltas. -/
def emittedUnits (chunks : List (List Char)) : List (List Char) :=
  (runStream [] chunks).1

/-- The buffer content still held (and dropped) when the provider stream
ends. -/
def finalBuffer (chunks : List (List Char)) : List Char :=
  (runStream [] chunks).2

/-- Association-list embedding of a Python `dict` of strings, looked up
with `.get`.  `lookupTable t k = none` embeds "`k` is not a key of the
dict". -/
def lookupTable : List (List Char × List Char) → List Char → Option (List Char)
  | [], _ => none
  | (k, v) :: t, m => if m = k then some v else lookupTable t m

/-- `MODEL_MAPPING` of `chat_handler.py` (lines 17-23). -/
def MODEL_MAPPING : List (List Char × List Char) :=
  [("gpt-4o".data, "gpt-4".data),
   ("gpt-4o-mini".data, "gpt-3.5-turbo".data),
   ("gpt-4".data, "gpt-4".data),
   ("gpt-4-turbo".data, "gpt-4-1106-preview".data),
   ("gpt-3.5-turbo".data, "gpt-3.5-turbo".data)]

/-- `MODEL_MAPPING.get(model, "gpt-4o")` as used by both
`chat_handler.get_ai_response_stream` (line 36) and
`chat_handler.get_ai_response` (line 114). -/
def ch_actual_model (model : List Char) : List Char :=
  (lookupTable MODEL_MAPPING model).getD "gpt-4o".data

/-- The fallback sentence of `chat_handler.get_ai_response_stream`
(line 30), yielded character by character when the OpenAI client is
unavailable. -/
def chFallback : List Char :=
  "I apologize, but the AI service is currently unavailable. Please check your OpenAI API key and try again later.".data

/-- The fixed system instruction `chat_handler.get_ai_response_stream`
prepends to the caller messages (lines 45-66). -/
def chSystemContent : List Char :=
  "You are a helpful assistant that answers generally queries to the user. You will help with with whatever you need to help with. You will answer in a way that is friendly and helpful. Should you be asked to write code;\n        \n        write clean, well-formatted code. When providing code examples:\n1. Always start with triple backticks and the language name on its own line\n2. Put the code on the next line after the language specification\n3. Put the closing triple backticks on a new line\n4. Format your response like this:\n\nHere\x27s how you can do it:\n\n```python\ndef example():\n    pass\n```\n\nNever put code on the same line as the backticks or language specification.".data

/-- The system message dictionary of `chat_handler.get_ai_response_stream`. -/
def chSystemMsg : Msg :=
  ⟨"system".data, chSystemContent⟩

/-- `chat_handler.get_ai_response_stream(messages, model)` (lines 26-105).
`client` is the availability of the module's `openai_client`; `api` stands
for the provider call `openai_client.chat.completions.create(...)`,
mapping the formatted message list and the resolved model to the sequence
of delta contents of the streamed chunks (a `None`/empty delta is an empty
list element).  The result is the list of units the generator yields. -/
def ch_get_ai_response_stream
    (client : Bool) (api : List Msg → List Char → List (List Char))
    (messages : List Msg) (model : List Char) : List (List Char) :=
  if !client then chFallback.map (fun c => [c])
  else
    let actual := ch_actual_model model
    let formatted := chSystemMsg :: messages
    (runStream [] (api formatted actual)).1

/-- `chat_handler.get_ai_response(messages, model)` (lines 108-129).
`api` stands for the non-streaming provider call, returning
`Except.error` when it raises and otherwise the optional message content
(`none` embeds a `None` content, turned into `""` by the `or ""`). -/
def ch_get_ai_response
    (client : Bool) (api : List Msg → List Char → Except Unit (Option (List Char)))
    (messages : List Msg) (model : List Char) : List Char :=
  if !client then "AI service is currently unavailable. Please check your API keys.".data
  else
    let actual := ch_actual_model model
    match api messages actual with
    | .error _ => "Error generating response. Please try again.".data
    | .ok none => []
    | .ok (some c) => c

/-- The lowercased, space-joined user-authored content scanned by the
fallback branches of `chat_handler.suggest_tags` (lines 179 and 228):
`" ".join([m["content"].lower() for m in messages if m["role"] == "user"])`.
Lowercasing is embedded per character (`Char.toLower`), the ASCII case of
Python `str.lower`. -/
def userContent (messages : List Msg) : List Char :=
  List.intercalate [' ']
    ((messages.filter (fun m => m.role = "user".data)).map
      (fun m => m.content.map Char.toLower))

/-- The keyword-matched fallback tag set built by
`chat_handler.suggest_tags` (lines 180-192 and 229-240), before the
`{"general"}` default is applied. -/
def fallbackTagsOf (content : List Char) : Finset (List Char) :=
  let t0 : Finset (List Char) := ∅
  let t1 := if containsSub "python".data content then insert "python".data t0 else t0
  let t2 := if containsSub "javascript".data content || containsSub "js".data content then
    insert "javascript".data t1 else t1
  let t3 := if containsSub "code".data content || containsSub "programming".data content then
    insert "coding".data t2 else t2
  let t4 := if containsSub "data".data content then insert "data".data t3 else t3
  let t5 := if containsSub "web".data content || containsSub "website".data content then
    insert "web".data t4 else t4
  t5

/-- Python `str.strip()` on a tag fragment: leading and trailing
whitespace removed. -/
def stripWS (s : List Char) : List Char :=
  ((s.dropWhile Char.isWhitespace).reverse.dropWhile Char.isWhitespace).reverse

/-- Python `s.split(',')`. -/
def splitComma : List Char → List (List Char)
  | [] => [[]]
  | c :: t =>
    match splitComma t with
    | [] => [[c]]
    | cur :: rest => if c = ',' then [] :: cur :: rest else (c :: cur) :: rest

/-- The tag-set comprehension of `chat_handler.suggest_tags` (line 223):
`{tag.strip().lower() for tag in tags if tag.strip()}`. -/
def parseTags (resp : List Char) : Finset (List Char) :=
  (splitComma resp).foldl
    (fun s t => if stripWS t = [] then s else insert ((stripWS t).map Char.toLower) s) ∅

/-- The system prompt of `chat_handler.suggest_tags` (lines 203-214). -/
def tagPromptMsg : Msg :=
  ⟨"system".data, "Analyze the conversation and suggest 1-3 relevant tags.\nRules for tags:\n1. Use lowercase letters only\n2. Use single words or hyphenated phrases\n3. Focus on technical topics, concepts, or programming languages\n4. Respond with tags only, separated by commas\nExample response: python, algorithms, data-structures".data⟩

/-- `chat_handler.suggest_tags(messages)` (lines 172-242).  `client` is
the availability of `openai_client`; `api` stands for the completion call,
returning `Except.error` when it raises and otherwise the optional
response content. -/
def suggest_tags
    (client : Bool) (api : List Msg → Except Unit (Option (List Char)))
    (messages : List Msg) : Finset (List Char) :=
  if messages = [] then ∅
  else if !client then
    let ft := fallbackTagsOf (userContent messages)
    if ft = ∅ then {"general".data} else ft
  else
    match api (tagPromptMsg :: messages) with
    | .ok (some c) =>
      if c = [] then {"general".data} else parseTags c
    | .ok none => {"general".data}
    | .error _ =>
      let ft := fallbackTagsOf (userContent messages)
      if ft = ∅ then {"general".data} else ft

/-- `MultiProviderChatHandler.model_mappings` (lines 55-84). -/
def mp_model_mappings : List (List Char × List Char) :=
  [("gpt-5".data, "gpt-4o".data),
   ("gpt-4.1".data, "gpt-4o".data),
   ("o3".data, "gpt-4o".data),
   ("o3-mini".data, "gpt-4o-mini".data),
   ("gpt-4o".data, "gpt-4o".data),
   ("gpt-4o-mini".data, "gpt-4o-mini".data),
   ("gpt-realtime".data, "gpt-4o".data),
   ("claude-opus-4.1".data, "claude-3-5-sonnet-20241022".data),
   ("claude-sonnet-4".data, "claude-3-5-sonnet-20241022".data),
   ("claude-3.7-sonnet".data, "claude-3-5-sonnet-20241022".data),
   ("claude-3-5-sonnet-20241022".data, "claude-3-5-sonnet-20241022".data),
   ("claude-3-5-haiku-20241022".data, "claude-3-5-haiku-20241022".data),
   ("gemini-2.5-pro".data, "gemini-1.5-pro".data),
   ("gemini-2.5-flash".data, "gemini-1.5-flash".data),
   ("gemini-2.0-flash".data, "gemini-1.5-flash".data),
   ("gemini-1.5-pro".data, "gemini-1.5-pro".data),
   ("gemini-1.5-flash".data, "gemini-1.5-flash".data),
   ("mistral-large-24.11".data, "mistral-large-latest".data),
   ("pixtral-large-2411".data, "mistral-large-latest".data),
   ("codestral-25.01".data, "codestral-latest".data),
   ("mistral-small-3.1".data, "mistral-small-latest".data)]

/-- `self.model_mappings.get(model, model)` of
`MultiProviderChatHandler.get_ai_response_stream` (line 102). -/
def mp_actual_model (model : List Char) : List Char :=
  (lookupTable mp_model_mappings model).getD model

/-- `MultiProviderChatHandler.get_provider_for_model` (lines 86-97):
ordered substring rules on the model identifier, first match wins. -/
def get_provider_for_model (model : List Char) : List Char :=
  if containsSub "gpt".data model || containsSub "o3".data model then "openai".data
  else if containsSub "claude".data model then "anthropic".data
  else if containsSub "gemini".data model then "google".data
  else if containsSub "mistral".data model || containsSub "pixtral".data model
      || containsSub "codestral".data model then "mistral".data
  else "openai".data

/-- Which provider client handles were successfully constructed
(`self.openai_client is not None`, etc.). -/
structure Clients where
  openai : Bool
  anthropic : Bool
  google : Bool
  mistral : Bool
deriving DecidableEq

/-- An adapter stream as the caller iterates it: the text fragments it
yields, in order, and whether iterating it ends by raising an exception
(after the listed fragments) instead of terminating normally. -/
structure PStream where
  units : List (List Char)
  fails : Bool
deriving DecidableEq

/-- The four provider adapter generators `_get_openai_response`,
`_get_anthropic_response`, `_get_google_response`,
`_get_mistral_response`, as functions of the caller messages and the
resolved native model.  Their bodies wrap network calls, so their
behaviour is a parameter of the embedding. -/
structure Adapters where
  openai : List Msg → List Char → PStream
  anthropic : List Msg → List Char → PStream
  google : List Msg → List Char → PStream
  mistral : List Msg → List Char → PStream

/-- The fallback sentence of
`MultiProviderChatHandler._get_fallback_response` (line 227). -/
def mpFallback : List Char :=
  "I apologize, but the AI service is currently unavailable. Please check your API keys and try again later.".data

/-- `MultiProviderChatHandler._get_fallback_response` (lines 225-229):
yields the fallback sentence character by character and terminates
normally. -/
def fallbackPStream : PStream :=
  ⟨mpFallback.map (fun c => [c]), false⟩

/-- `MultiProviderChatHandler.get_ai_response_stream` (lines 99-126).

The source wraps the dispatch in `try/except`, but every branch of the
`try` only calls a generator function, which constructs a generator
object without running its body; the body (and any exception it raises)
runs later, while the caller iterates, outside the `try`.  The `except`
clause therefore cannot fire, and the dispatched adapter's stream —
including a mid-iteration failure, recorded in `PStream.fails` — is
returned to the caller unchanged. -/
def mp_get_ai_response_stream
    (cl : Clients) (ad : Adapters) (messages : List Msg) (model : List Char) : PStream :=
  let provider := get_provider_for_model model
  let actual := mp_actual_model model
  if provider = "openai".data ∧ cl.openai = true then ad.openai messages actual
  else if provider = "anthropic".data ∧ cl.anthropic = true then ad.anthropic messages actual
  else if provider = "google".data ∧ cl.google = true then ad.google messages actual
  else if provider = "mistral".data ∧ cl.mistral = true then ad.mistral messages actual
  else if cl.openai = true then ad.openai messages "gpt-4o".data
  else fallbackPStream

/-- The fixed system instruction `_get_openai_response` inserts at the
front of the caller messages (lines 132-148). -/
def openaiSystemContent : List Char :=
  "You are a helpful assistant that answers queries professionally. When providing code examples:\n1. Always start with triple backticks and the language name on its own line\n2. Put the code on the next line after the language specification\n3. Put the closing triple backticks on a new line\n4. Format your response like this:\n\nHere\x27s how you can do it:\n\n```python\ndef example():\n    pass\n```\n\nNever put code on the same line as the backticks or language specification.".data

/-- The system message dictionary of `_get_openai_response`. -/
def openaiSystemMsg : Msg :=
  ⟨"system".data, openaiSystemContent⟩

/-- The message list `_get_openai_response` sends to the provider
(lines 130-149): the caller messages re-built field by field, with the
fixed system message inserted at index 0 unconditionally. -/
def openaiMessages (messages : List Msg) : List Msg :=
  openaiSystemMsg :: messages

/-- The default system prompt of `_get_anthropic_response` (line 165). -/
def anthropicDefaultPrompt : List Char :=
  "You are a helpful assistant that answers queries professionally.".data

/-- The message-conversion loop of `_get_anthropic_response`
(lines 164-171): a system-role message overwrites the system prompt (the
last one wins), every other message is appended to the Claude message
list. -/
def anthropicLoop : List Char → List Msg → List Msg → List Char × List Msg
  | sp, acc, [] => (sp, acc)
  | sp, acc, m :: rest =>
    if m.role = "system".data then anthropicLoop m.content acc rest
    else anthropicLoop sp (acc ++ [m]) rest

/-- The `(system_prompt, claude_messages)` pair `_get_anthropic_response`
sends to the provider. -/
def anthropicConvert (messages : List Msg) : List Char × List Msg :=
  anthropicLoop anthropicDefaultPrompt [] messages

theorem fence_length : fence.length = 3 := rfl

theorem isPrefixL_length_le {f s : List Char} (h : isPrefixL f s = true) :
    f.length ≤ s.length := by
  induction f generalizing s with
  | nil => simp
  | cons a as ih =>
    cases s with
    | nil => simp [isPrefixL] at h
    | cons b bs =>
      simp only [isPrefixL, Bool.and_eq_true] at h
      simpa using ih h.2

theorem isPrefixL_of_take {f s : List Char} {n : Nat}
    (h : isPrefixL f (s.take n) = true) : isPrefixL f s = true := by
  induction f generalizing s n with
  | nil => simp [isPrefixL]
  | cons a as ih =>
    cases s with
    | nil => cases n <;> simp [isPrefixL] at h
    | cons b bs =>
      cases n with
      | zero => simp [isPrefixL] at h
      | succ m =>
        simp only [List.take, isPrefixL, Bool.and_eq_true] at h ⊢
        exact ⟨h.1, ih h.2⟩

theorem isPrefixL_take_of_le {f s : List Char} {n : Nat}
    (h : isPrefixL f s = true) (hn : f.length ≤ n) : isPrefixL f (s.take n) = true := by
  induction f generalizing s n with
  | nil => simp [isPrefixL]
  | cons a as ih =>
    cases s with
    | nil => simp [isPrefixL] at h
    | cons b bs =>
      cases n with
      | zero => simp at hn
      | succ m =>
        simp only [isPrefixL, Bool.and_eq_true] at h
        simp only [List.take, isPrefixL, Bool.and_eq_true]
        exact ⟨h.1, ih h.2 (by simpa using hn)⟩

theorem findSub_fence_nil : findSub fence [] = none := rfl

theorem findSub_isPrefixL {f s : List Char} {k : Nat}
    (h : findSub f s = some k) : isPrefixL f (s.drop k) = true := by
  induction s generalizing k with
  | nil =>
    simp only [findSub] at h
    split at h
    · cases h; simpa using ‹isPrefixL f [] = true›
    · exact absurd h (by simp)
  | cons c t ih =>
    simp only [findSub] at h
    split at h
    · cases h; simpa using ‹isPrefixL f (c :: t) = true›
    · cases hk : findSub f t with
      | none => rw [hk] at h; simp at h
      | some j =>
        rw [hk] at h
        simp only [Option.map_some'] at h
        cases h
        simpa using ih hk

theorem findSub_fence_bound {s : List Char} {k : Nat}
    (h : findSub fence s = some k) : k + 3 ≤ s.length := by
  have h1 := isPrefixL_length_le (findSub_isPrefixL h)
  rw [fence_length, List.length_drop] at h1
  omega

theorem countFenceAux_drop (k : Nat) (t : List Char) :
    countFenceAux k t = countFence (t.drop k) := by
  induction t generalizing k with
  | nil => cases k <;> simp [countFenceAux, countFence]
  | cons c t ih =>
    cases k with
    | zero => simp [countFence]
    | succ j => simpa [countFenceAux, List.drop] using ih j

theorem countFence_cons (c : Char) (t : List Char) :
    countFence (c :: t) =
      if isPrefixL fence (c :: t) = true then 1 + countFence (t.drop 2)
      else countFence t := by
  simp only [countFence, countFenceAux]
  split
  · simp [countFenceAux_drop]
  · rfl

theorem countFence_of_findSub_none {s : List Char}
    (h : findSub fence s = none) : countFence s = 0 := by
  induction s with
  | nil => rfl
  | cons c t ih =>
    simp only [findSub] at h
    split at h
    · simp at h
    · rw [countFence_cons]
      rw [if_neg (by simp_all)]
      exact ih (by cases hk : findSub fence t <;> simp [hk] at h ⊢)

theorem countFence_of_findSub_some {s : List Char} {k : Nat}
    (h : findSub fence s = some k) : countFence s = 1 + countFence (s.drop (k + 3)) := by
  induction s generalizing k with
  | nil => simp [findSub_fence_nil] at h
  | cons c t ih =>
    simp only [findSub] at h
    split at h
    · cases h
      rw [countFence_cons, if_pos ‹isPrefixL fence (c :: t) = true›]
      rfl
    · cases hk : findSub fence t with
      | none => rw [hk] at h; simp at h
      | some j =>
        rw [hk] at h
        simp only [Option.map_some'] at h
        cases h
        rw [countFence_cons, if_neg (by simp_all)]
        simpa [List.drop] using ih hk

theorem findSub_take_none {s : List Char} {k : Nat}
    (h : findSub fence s = some k) : findSub fence (s.take k) = none := by
  induction s generalizing k with
  | nil => simp [findSub_fence_nil] at h
  | cons c t ih =>
    simp only [findSub] at h
    split at h
    · cases h; rfl
    · cases hk : findSub fence t with
      | none => rw [hk] at h; simp at h
      | some j =>
        rw [hk] at h
        simp only [Option.map_some'] at h
        cases h
        have hp : isPrefixL fence (c :: t.take j) = false := by
          by_contra hc
          have : isPrefixL fence (c :: t) = true := by
            have := isPrefixL_of_take (n := j + 1) (s := c :: t)
              (by simpa [List.take] using Bool.of_not_eq_false hc)
            exact this
          simp_all
        simp [List.take, findSub, hp, ih hk]

theorem findSub_take_some {s : List Char} {k n : Nat}
    (h : findSub fence s = some k) (hn : k + 3 ≤ n) :
    findSub fence (s.take n) = some k := by
  induction s generalizing k n with
  | nil => simp [findSub_fence_nil] at h
  | cons c t ih =>
    simp only [findSub] at h
    split at h
    · cases h
      have hp : isPrefixL fence ((c :: t).take n) = true :=
        isPrefixL_take_of_le ‹isPrefixL fence (c :: t) = true› (by rw [fence_length]; omega)
      cases n with
      | zero => omega
      | succ m => simp [List.take, findSub] at hp ⊢; simp [hp]
    · cases hk : findSub fence t with
      | none => rw [hk] at h; simp at h
      | some j =>
        rw [hk] at h
        simp only [Option.map_some'] at h
        cases h
        cases n with
        | zero => omega
        | succ m =>
          have hp : isPrefixL fence (c :: t.take m) = false := by
            by_contra hc
            have : isPrefixL fence (c :: t) = true :=
              isPrefixL_of_take (n := m + 1) (s := c :: t)
                (by simpa [List.take] using Bool.of_not_eq_false hc)
            simp_all
          have hih : findSub fence (t.take m) = some j := ih hk (by omega)
          simp [List.take, findSub, hp, hih]

theorem countFence_take_of_findSub {s : List Char} {k : Nat}
    (h : findSub fence s = some k) : countFence (s.take k) = 0 :=
  countFence_of_findSub_none (findSub_take_none h)

theorem findSub_of_isPrefixL {x : List Char} (h : isPrefixL fence x = true) :
    findSub fence x = some 0 := by
  cases x with
  | nil => exact absurd h (by decide)
  | cons c t => simp [findSub, h]

theorem countFence_block {s : List Char} {start e : Nat}
    (h1 : findSub fence s = some start)
    (h2 : findSub fence (s.drop (start + 3)) = some e) :
    countFence ((s.drop start).take (e + 6)) = 2 := by
  have hpd : isPrefixL fence (s.drop start) = true := findSub_isPrefixL h1
  have hpb : isPrefixL fence ((s.drop start).take (e + 6)) = true :=
    isPrefixL_take_of_le hpd (by rw [fence_length]; omega)
  have hb0 : findSub fence ((s.drop start).take (e + 6)) = some 0 :=
    findSub_of_isPrefixL hpb
  rw [countFence_of_findSub_some hb0]
  have hdt : ((s.drop start).take (e + 6)).drop 3 = ((s.drop start).drop 3).take (e + 3) := by
    rw [List.drop_take]
    congr 1
  have hdd : (s.drop start).drop 3 = s.drop (start + 3) := by
    rw [List.drop_drop]
  rw [Nat.zero_add, hdt, hdd]
  have htk : findSub fence ((s.drop (start + 3)).take (e + 3)) = some e :=
    findSub_take_some h2 (le_refl _)
  rw [countFence_of_findSub_some htk]
  have hnil : (((s.drop (start + 3)).take (e + 3)).drop (e + 3)) = [] :=
    List.drop_eq_nil_of_le (List.length_take_le ..)
  rw [hnil]
  rfl

theorem processBufferF_succ_none {n : Nat} {s : List Char}
    (h1 : findSub fence s = none) : processBufferF (n + 1) s = ([s], []) := by
  simp [processBufferF, h1]

theorem processBufferF_succ_open {n : Nat} {s : List Char} {start : Nat}
    (h1 : findSub fence s = some start)
    (h2 : findSub fence (s.drop (start + 3)) = none) :
    processBufferF (n + 1) s = ([], s) := by
  simp [processBufferF, h1, h2]

theorem processBufferF_succ_close {n : Nat} {s : List Char} {start e : Nat}
    (h1 : findSub fence s = some start)
    (h2 : findSub fence (s.drop (start + 3)) = some e) :
    processBufferF (n + 1) s =
      ((if 0 < start then [s.take start] else []) ++
        (s.drop start).take (start + 3 + e + 3 - start) ::
          (processBufferF n (s.drop (start + 3 + e + 3))).1,
        (processBufferF n (s.drop (start + 3 + e + 3))).2) := by
  simp [processBufferF, h1, h2]

theorem mem_processBufferF_even {fuel : Nat} {s u : List Char}
    (h : u ∈ (processBufferF fuel s).1) : countFence u % 2 = 0 := by
  induction fuel generalizing s with
  | zero => simp [processBufferF] at h
  | succ n ih =>
    cases h1 : findSub fence s with
    | none =>
      rw [processBufferF_succ_none h1] at h
      simp only [List.mem_singleton] at h
      subst h
      simp [countFence_of_findSub_none h1]
    | some start =>
      cases h2 : findSub fence (s.drop (start + 3)) with
      | none => rw [processBufferF_succ_open h1 h2] at h; simp at h
      | some e =>
        rw [processBufferF_succ_close h1 h2] at h
        simp only [List.mem_append, List.mem_cons] at h
        rcases h with hpre | hblk | hrec
        · have hu : u = s.take start := by
            by_cases hs : 0 < start <;> simp [hs] at hpre
            exact hpre
          subst hu
          simp [countFence_take_of_findSub h1]
        · subst hblk
          have he : start + 3 + e + 3 - start = e + 6 := by omega
          rw [he, countFence_block h1 h2]
        · exact ih hrec

theorem mem_runStream_even {chunks : List (List Char)} {buf u : List Char}
    (h : u ∈ (runStream buf chunks).1) : countFence u % 2 = 0 := by
  induction chunks generalizing buf with
  | nil => simp [runStream] at h
  | cons c cs ih =>
    rw [runStream] at h
    by_cases hc : c = []
    · rw [if_pos hc] at h
      exact ih h
    · rw [if_neg hc] at h
      simp only [List.mem_append] at h
      rcases h with hp | hr
      · exact mem_processBufferF_even hp
      · exact ih hr

theorem anthropicLoop_fst_of_no_system {l : List Msg} {sp : List Char} {acc : List Msg}
    (h : ∀ m ∈ l, m.role ≠ "system".data) : (anthropicLoop sp acc l).1 = sp := by
  induction l generalizing acc with
  | nil => rfl
  | cons m rest ih =>
    have hm : ¬ m.role = "system".data := h m (List.mem_cons_self ..)
    simp only [anthropicLoop, if_neg hm]
    exact ih fun x hx => h x (List.mem_cons_of_mem _ hx)

theorem anthropicLoop_append (l1 l2 : List Msg) (sp : List Char) (acc : List Msg) :
    anthropicLoop sp acc (l1 ++ l2) =
      anthropicLoop (anthropicLoop sp acc l1).1 (anthropicLoop sp acc l1).2 l2 := by
  induction l1 generalizing sp acc with
  | nil => rfl
  | cons m rest ih =>
    simp only [List.cons_append, anthropicLoop]
    by_cases hm : m.role = "system".data
    · rw [if_pos hm, if_pos hm]
      exact ih ..
    · rw [if_neg hm, if_neg hm]
      exact ih ..

/-- C1: the claim asserts that concatenating all units the fence filter
emits, including what it emits at end-of-stream, reproduces the input for
every chunking — also when a triple-backtick fence is left unterminated.
The code has no end-of-stream flush: for the single chunk `"```a"` the
filter emits nothing and the buffered `"```a"` is silently dropped, so the
concatenation of the emitted units is `""`, not `"```a"`. -/
theorem fence_filter_eos_buffer_dropped :
    List.flatten (emittedUnits ["```a".data]) = [] ∧
    finalBuffer ["```a".data] = "```a".data ∧
    "```a".data ≠ ([] : List Char) := by decide

/-- C2: no unit the fence filter emits ever contains an odd number of
non-overlapping triple-backtick markers (stronger than the claim, which
assumes the fences of the full content are well formed and complete), and
on the chunks `"abc```py"`, `"code```def"` the filter emits exactly
`"abc"`, `"```pycode```"`, `"def"`, in that order: the complete fence is
one single unit although its two markers arrived in different chunks. -/
theorem fence_filter_even_markers_and_atomic :
    (∀ (chunks : List (List Char)) (u : List Char),
       u ∈ emittedUnits chunks → countFence u % 2 = 0) ∧
    emittedUnits ["abc```py".data, "code```def".data] =
      ["abc".data, "```pycode```".data, "def".data] :=
  ⟨fun _ _ h => mem_runStream_even h, by decide⟩

/-- Witness for C2 at a concrete emitted unit. -/
theorem fence_filter_even_markers_and_atomic_witness :
    "```pycode```".data ∈ emittedUnits ["abc```py".data, "code```def".data] ∧
    countFence "```pycode```".data % 2 = 0 :=
  ⟨by decide,
   fence_filter_even_markers_and_atomic.1 ["abc```py".data, "code```def".data]
     "```pycode```".data (by decide)⟩

/-- C3 counterexample: after the single chunk `"abc```py"` the buffer
holds an opening marker (at index 3) with no closing marker, yet the
filter has emitted nothing at all — in particular not the plain-text
prefix `"abc"`, which the claim says is flushed immediately. -/
theorem fence_filter_prefix_not_flushed_cex :
    emittedUnits ["abc```py".data] = [] ∧
    ¬ ("abc".data ∈ emittedUnits ["abc```py".data]) ∧
    finalBuffer ["abc```py".data] = "abc```py".data ∧
    findSub fence (finalBuffer ["abc```py".data]) = some 3 ∧
    findSub fence ((finalBuffer ["abc```py".data]).drop 6) = none := by decide

/-- C3 amended: when the first marker found in the buffer has no closing
marker yet, the reassembly loop emits nothing and retains the entire
buffer — the plain-text prefix before the opening marker included — until
more input arrives. -/
theorem fence_filter_prefix_retained {s : List Char} {start : Nat}
    (h1 : findSub fence s = some start)
    (h2 : findSub fence (s.drop (start + 3)) = none) :
    processBuffer s = ([], s) := by
  unfold processBuffer
  exact processBufferF_succ_open h1 h2

/-- Witness for the amended C3 on the buffer `"abc```py"`. -/
theorem fence_filter_prefix_retained_witness :
    findSub fence "abc```py".data = some 3 ∧
    findSub fence ("abc```py".data.drop 6) = none ∧
    processBuffer "abc```py".data = ([], "abc```py".data) :=
  ⟨by decide, by decide,
   @fence_filter_prefix_retained "abc```py".data 3 (by decide) (by decide)⟩

/-- C4: the claim says a mid-iteration adapter exception is caught by the
orchestrator and the remaining output switched to the OpenAI adapter.  In
the code the `try/except` only wraps the construction of the adapter
generators, so the failure reaches the caller unhandled: with every
credential available and an Anthropic adapter that yields `"partial"` and
then raises, the caller receives exactly that failing stream — the
exception propagates (`fails = true`) and nothing is switched to the
available OpenAI adapter. -/
theorem orchestrator_midstream_exception_propagates :
    mp_get_ai_response_stream ⟨true, true, true, true⟩
      { openai := fun _ _ => ⟨["recovered".data], false⟩,
        anthropic := fun _ _ => ⟨["partial".data], true⟩,
        google := fun _ _ => ⟨[], false⟩,
        mistral := fun _ _ => ⟨[], false⟩ }
      [] "claude-3-5-haiku-20241022".data = ⟨["partial".data], true⟩ := by decide

/-- C5: with the client handle unavailable, the single-provider streaming
call yields the fixed apology sentence character by character and
terminates; with no provider credential at all, the multi-provider stream
is the fallback stream (its apology character by character, no failure),
and the non-streaming completion returns the fixed error string. -/
theorem fallback_on_missing_credentials :
    (∀ (api : List Msg → List Char → List (List Char)) (messages : List Msg)
       (model : List Char),
       ch_get_ai_response_stream false api messages model =
         chFallback.map (fun c => [c])) ∧
    (∀ (ad : Adapters) (messages : List Msg) (model : List Char),
       mp_get_ai_response_stream ⟨false, false, false, false⟩ ad messages model =
         fallbackPStream) ∧
    (∀ (api : List Msg → List Char → Except Unit (Option (List Char)))
       (messages : List Msg) (model : List Char),
       ch_get_ai_response false api messages model =
         "AI service is currently unavailable. Please check your API keys.".data) := by
  refine ⟨fun _ _ _ => rfl, fun ad messages model => ?_, fun _ _ _ => rfl⟩
  simp [mp_get_ai_response_stream]

/-- C6 counterexample: the claim's final conjunct — every model identifier
containing `"claude"` resolves to Anthropic — fails: `"gpt-claude"`
contains `"claude"` but the first rule matches `"gpt"` and wins, so the
resolver returns OpenAI. -/
theorem resolve_provider_claude_universal_cex :
    containsSub "claude".data "gpt-claude".data = true ∧
    get_provider_for_model "gpt-claude".data = "openai".data ∧
    "openai".data ≠ "anthropic".data := by decide

/-- C6 amended: `get_provider_for_model` is a total pure function applying
ordered substring rules, first match wins: `"gpt"`/`"o3"` give OpenAI;
otherwise `"claude"` gives Anthropic; otherwise `"gemini"` gives Google;
otherwise `"mistral"`/`"pixtral"`/`"codestral"` give Mistral; every other
identifier gives OpenAI.  An identifier containing `"claude"` resolves to
Anthropic provided it does not also contain `"gpt"` or `"o3"`. -/
theorem resolve_provider_ordered_rules :
    ∀ model : List Char,
      ((containsSub "gpt".data model = true ∨ containsSub "o3".data model = true) →
        get_provider_for_model model = "openai".data) ∧
      (containsSub "gpt".data model = false → containsSub "o3".data model = false →
        containsSub "claude".data model = true →
        get_provider_for_model model = "anthropic".data) ∧
      (containsSub "gpt".data model = false → containsSub "o3".data model = false →
        containsSub "claude".data model = false →
        containsSub "gemini".data model = true →
        get_provider_for_model model = "google".data) ∧
      (containsSub "gpt".data model = false → containsSub "o3".data model = false →
        containsSub "claude".data model = false → containsSub "gemini".data model = false →
        (containsSub "mistral".data model = true ∨ containsSub "pixtral".data model = true ∨
          containsSub "codestral".data model = true) →
        get_provider_for_model model = "mistral".data) ∧
      (containsSub "gpt".data model = false → containsSub "o3".data model = false →
        containsSub "claude".data model = false → containsSub "gemini".data model = false →
        containsSub "mistral".data model = false → containsSub "pixtral".data model = false →
        containsSub "codestral".data model = false →
        get_provider_for_model model = "openai".data) := by
  intro model
  refine ⟨?_, ?_, ?_, ?_, ?_⟩
  · rintro (h | h) <;> simp [get_provider_for_model, h]
  · intro h1 h2 h3
    simp [get_provider_for_model, h1, h2, h3]
  · intro h1 h2 h3 h4
    simp [get_provider_for_model, h1, h2, h3, h4]
  · rintro h1 h2 h3 h4 (h | h | h) <;>
      simp [get_provider_for_model, h1, h2, h3, h4, h]
  · intro h1 h2 h3 h4 h5 h6 h7
    simp [get_provider_for_model, h1, h2, h3, h4, h5, h6, h7]

/-- Witness for the amended C6 on concrete identifiers. -/
theorem resolve_provider_ordered_rules_witness :
    get_provider_for_model "claude-sonnet-4".data = "anthropic".data ∧
    get_provider_for_model "unknown-xyz".data = "openai".data :=
  ⟨(resolve_provider_ordered_rules "claude-sonnet-4".data).2.1
      (by decide) (by decide) (by decide),
   (resolve_provider_ordered_rules "unknown-xyz".data).2.2.2.2
      (by decide) (by decide) (by decide) (by decide) (by decide) (by decide) (by decide)⟩

/-- C7 counterexample: `"claude-sonnet-4"` is not a key of chat_handler's
`MODEL_MAPPING`, yet the streaming entry point of `chat_handler` resolves
it to the default `"gpt-4o"` instead of passing it through unchanged. -/
theorem native_model_passthrough_cex :
    lookupTable MODEL_MAPPING "claude-sonnet-4".data = none ∧
    ch_actual_model "claude-sonnet-4".data = "gpt-4o".data ∧
    "gpt-4o".data ≠ "claude-sonnet-4".data := by decide

/-- C7 amended: the multi-provider streaming entry point passes model
identifiers that are not keys of its mapping table through unchanged; the
single-provider `chat_handler` streaming entry point instead resolves
unmapped identifiers to the fixed default `"gpt-4o"`. -/
theorem native_model_resolution :
    (∀ model : List Char, lookupTable mp_model_mappings model = none →
       mp_actual_model model = model) ∧
    (∀ model : List Char, lookupTable MODEL_MAPPING model = none →
       ch_actual_model model = "gpt-4o".data) := by
  constructor <;> intro model h <;> simp [mp_actual_model, ch_actual_model, h]

/-- Witness for the amended C7 at `"unknown-xyz"`. -/
theorem native_model_resolution_witness :
    lookupTable mp_model_mappings "unknown-xyz".data = none ∧
    mp_actual_model "unknown-xyz".data = "unknown-xyz".data ∧
    lookupTable MODEL_MAPPING "unknown-xyz".data = none ∧
    ch_actual_model "unknown-xyz".data = "gpt-4o".data :=
  ⟨by decide, native_model_resolution.1 "unknown-xyz".data (by decide),
   by decide, native_model_resolution.2 "unknown-xyz".data (by decide)⟩

/-- C8 counterexample: the OpenAI adapter inserts its fixed code-fencing
system instruction even when the caller already supplied a system-role
message — the injection is unconditional, and the provider receives the
fixed instruction first, not the caller's system content in its place. -/
theorem system_instruction_unconditional_cex :
    openaiMessages [⟨"system".data, "use formal tone".data⟩] =
      [openaiSystemMsg, ⟨"system".data, "use formal tone".data⟩] ∧
    openaiSystemMsg.content ≠ "use formal tone".data :=
  ⟨rfl, by decide⟩

/-- C8 amended: the OpenAI adapter always prepends its fixed code-fencing
system instruction, keeping any caller messages (a caller system message
included) after it; the Anthropic adapter injects no code-fencing
instruction — it uses the caller's (last) system-role message content as
the provider system prompt when one is present and a fixed generic
sentence otherwise. -/
theorem system_instruction_injection :
    (∀ messages : List Msg, openaiMessages messages = openaiSystemMsg :: messages) ∧
    (∀ messages : List Msg, (∀ m ∈ messages, m.role ≠ "system".data) →
       (anthropicConvert messages).1 = anthropicDefaultPrompt) ∧
    (∀ (pre : List Msg) (m : Msg) (post : List Msg), m.role = "system".data →
       (∀ x ∈ post, x.role ≠ "system".data) →
       (anthropicConvert (pre ++ m :: post)).1 = m.content) := by
  refine ⟨fun _ => rfl, fun messages h => anthropicLoop_fst_of_no_system h, ?_⟩
  intro pre m post hm hpost
  unfold anthropicConvert
  rw [anthropicLoop_append]
  simp only [anthropicLoop, if_pos hm]
  exact anthropicLoop_fst_of_no_system hpost

/-- Witness for the amended C8 on concrete message lists. -/
theorem system_instruction_injection_witness :
    openaiMessages [] = [openaiSystemMsg] ∧
    (anthropicConvert [⟨"user".data, "hi".data⟩]).1 = anthropicDefaultPrompt ∧
    (anthropicConvert ([⟨"user".data, "hi".data⟩] ++
        (⟨"system".data, "be terse".data⟩ : Msg) :: [])).1 = "be terse".data :=
  ⟨system_instruction_injection.1 [],
   system_instruction_injection.2.1 [⟨"user".data, "hi".data⟩] (by decide),
   system_instruction_injection.2.2 [⟨"user".data, "hi".data⟩]
     ⟨"system".data, "be terse".data⟩ [] (by decide) (by decide)⟩

/-- C9: with no provider client, `suggest_tags` on a non-empty message
list returns the deterministic keyword fallback computed from the
lowercased, space-joined user-authored content: content containing
`"python"` puts `"python"` in the result, and content matching none of the
fallback vocabulary words yields exactly the singleton `{"general"}`. -/
theorem suggest_tags_fallback_keywords :
    ∀ (api : List Msg → Except Unit (Option (List Char))) (messages : List Msg),
      messages ≠ [] →
      (containsSub "python".data (userContent messages) = true →
        "python".data ∈ suggest_tags false api messages) ∧
      (containsSub "python".data (userContent messages) = false →
       containsSub "javascript".data (userContent messages) = false →
       containsSub "js".data (userContent messages) = false →
       containsSub "code".data (userContent messages) = false →
       containsSub "programming".data (userContent messages) = false →
       containsSub "data".data (userContent messages) = false →
       containsSub "web".data (userContent messages) = false →
       containsSub "website".data (userContent messages) = false →
       suggest_tags false api messages = {"general".data}) := by
  intro api messages hne
  constructor
  · intro hpy
    have hmem : "python".data ∈ fallbackTagsOf (userContent messages) := by
      unfold fallbackTagsOf
      simp only [hpy, if_true]
      split_ifs <;> simp [Finset.mem_insert]
    have h1 : suggest_tags false api messages =
        (if fallbackTagsOf (userContent messages) = ∅ then {"general".data}
         else fallbackTagsOf (userContent messages)) := by
      simp [suggest_tags, hne]
    rw [h1, if_neg (by intro h0; rw [h0] at hmem; simp at hmem)]
    exact hmem
  · intro h1 h2 h3 h4 h5 h6 h7 h8
    have hft : fallbackTagsOf (userContent messages) = ∅ := by
      unfold fallbackTagsOf
      simp [h1, h2, h3, h4, h5, h6, h7, h8]
    simp [suggest_tags, hne, hft]

/-- Witness for C9 on concrete conversations. -/
theorem suggest_tags_fallback_keywords_witness :
    "python".data ∈ suggest_tags false (fun _ => .ok none)
      [⟨"user".data, "I love Python".data⟩] ∧
    suggest_tags false (fun _ => .ok none)
      [⟨"user".data, "hello there".data⟩] = {"general".data} :=
  ⟨(suggest_tags_fallback_keywords (fun _ => .ok none)
      [⟨"user".data, "I love Python".data⟩] (by decide)).1 (by decide),
   (suggest_tags_fallback_keywords (fun _ => .ok none)
      [⟨"user".data, "hello there".data⟩] (by decide)).2
     (by decide) (by decide) (by decide) (by decide)
     (by decide) (by decide) (by decide) (by decide)⟩

/-- C10: for the empty message list `suggest_tags` returns the empty set,
whatever the client availability and whatever the provider would answer —
the `{"general"}` fallback never applies to empty input. -/
theorem suggest_tags_empty_messages :
    ∀ (client : Bool) (api : List Msg → Except Unit (Option (List Char))),
      suggest_tags client api [] = ∅ :=
  fun _ _ => rfl

theorem processBufferF_flatten {fuel : Nat} {s : List Char} (hf : s.length < fuel) :
    List.flatten (processBufferF fuel s).1 ++ (processBufferF fuel s).2 = s := by
  induction fuel generalizing s with
  | zero => omega
  | succ n ih =>
    cases h1 : findSub fence s with
    | none => rw [processBufferF_succ_none h1]; simp
    | some start =>
      cases h2 : findSub fence (s.drop (start + 3)) with
      | none => rw [processBufferF_succ_open h1 h2]; simp
      | some e =>
        rw [processBufferF_succ_close h1 h2]
        have hb2 : e + 3 ≤ (s.drop (start + 3)).length := findSub_fence_bound h2
        rw [List.length_drop] at hb2
        have hb1 : start + 3 ≤ s.length := findSub_fence_bound h1
        have hrest : (s.drop (start + 3 + e + 3)).length < n := by
          rw [List.length_drop]; omega
        simp only [List.flatten_append, List.flatten_cons, List.append_assoc]
        rw [ih hrest]
        have hpre : List.flatten (if 0 < start then [s.take start] else []) = s.take start := by
          split_ifs with hs
          · simp
          · simp [show start = 0 by omega]
        rw [hpre]
        have hdd : s.drop (start + 3 + e + 3) = (s.drop start).drop (start + 3 + e + 3 - start) := by
          rw [List.drop_drop]
          congr 1
          omega
        rw [hdd, List.take_append_drop, List.take_append_drop]

/-- Whatever is fed to the filter, the units emitted so far and the buffer
still held always concatenate back to the input consumed so far: nothing
is lost while the stream is live — only the final buffer, which the source
drops at end-of-stream, can go missing. -/
theorem runStream_flatten (chunks : List (List Char)) (buf : List Char) :
    List.flatten (runStream buf chunks).1 ++ (runStream buf chunks).2 =
      buf ++ List.flatten chunks := by
  induction chunks generalizing buf with
  | nil => simp [runStream]
  | cons c cs ih =>
    rw [runStream]
    by_cases hc : c = []
    · rw [if_pos hc, ih]
      simp [hc]
    · rw [if_neg hc]
      simp only [List.flatten_append, List.flatten_cons]
      rw [List.append_assoc, ih, ← List.append_assoc]
      have hp : List.flatten (processBuffer (buf ++ c)).1 ++ (processBuffer (buf ++ c)).2 =
          buf ++ c := processBufferF_flatten (Nat.lt_succ_self _)
      rw [hp, List.append_assoc]

/-- Content preservation of the live filter: emitted units plus the
dropped final buffer reconstruct the full raw stream content. -/
theorem fence_filter_content_preservation (chunks : List (List Char)) :
    List.flatten (emittedUnits chunks) ++ finalBuffer chunks = List.flatten chunks := by
  unfold emittedUnits finalBuffer
  rw [runStream_flatten]
  simp
